import Mathlib

/-!
Shallow embedding of the TruffleRuby C-extension glue layer
(src/main/c/cext/call.c, ivar.c, printf.c).

The C files are thin wrappers around a generic foreign-call bridge into the
managed host runtime: each wrapper unwraps its VALUE handles, issues one
`polyglot_invoke(RUBY_CEXT, "op", args...)` (or a method invocation on an
object), and wraps the result.  We model the host runtime as an oracle
`Host σ` threading a state `σ`, and each wrapper as a Lean function that
returns an outcome (normal value, raised exception, or fatal internal error),
the new host state, and the trace of bridge invocations it issued.
-/

/-- Scalar managed values: the glue layer distinguishes nil, symbols,
integers, strings and named objects/classes. -/
inductive Atom where
  | anil
  | asym (name : String)
  | aint (i : Int)
  | astr (s : String)
  | aconst (name : String)
deriving DecidableEq

/-- Managed-side runtime values (the host runtime's object references), as far
as the glue layer can observe them: a scalar, an ordered array, or an
exception object (class paired with message). -/
inductive Val where
  | atom (a : Atom)
  | ary (elems : List Val)
  | exc (cls : Val) (msg : Val)

@[match_pattern] def Val.nil : Val := Val.atom Atom.anil

@[match_pattern] def Val.sym (name : String) : Val := Val.atom (Atom.asym name)

@[match_pattern] def Val.int (i : Int) : Val := Val.atom (Atom.aint i)

@[match_pattern] def Val.str (s : String) : Val := Val.atom (Atom.astr s)

@[match_pattern] def Val.const (name : String) : Val := Val.atom (Atom.aconst name)

mutual

def Val.decEq : (a b : Val) → Decidable (a = b)
  | .atom x, .atom y =>
    if h : x = y then isTrue (by rw [h])
    else isFalse (by intro hEq; injection hEq; contradiction)
  | .ary xs, .ary ys =>
    match Val.decEqList xs ys with
    | isTrue h => isTrue (by rw [h])
    | isFalse h => isFalse (by intro hEq; injection hEq; contradiction)
  | .exc c1 m1, .exc c2 m2 =>
    match Val.decEq c1 c2, Val.decEq m1 m2 with
    | isTrue h1, isTrue h2 => isTrue (by rw [h1, h2])
    | isFalse h1, _ => isFalse (by intro hEq; injection hEq; contradiction)
    | _, isFalse h2 => isFalse (by intro hEq; injection hEq; contradiction)
  | .atom _, .ary _ => isFalse (fun h => Val.noConfusion h)
  | .atom _, .exc _ _ => isFalse (fun h => Val.noConfusion h)
  | .ary _, .atom _ => isFalse (fun h => Val.noConfusion h)
  | .ary _, .exc _ _ => isFalse (fun h => Val.noConfusion h)
  | .exc _ _, .atom _ => isFalse (fun h => Val.noConfusion h)
  | .exc _ _, .ary _ => isFalse (fun h => Val.noConfusion h)

def Val.decEqList : (a b : List Val) → Decidable (a = b)
  | [], [] => isTrue rfl
  | [], _ :: _ => isFalse (fun h => List.noConfusion h)
  | _ :: _, [] => isFalse (fun h => List.noConfusion h)
  | x :: xs, y :: ys =>
    match Val.decEq x y, Val.decEqList xs ys with
    | isTrue h1, isTrue h2 => isTrue (by rw [h1, h2])
    | isFalse h1, _ => isFalse (by intro hEq; injection hEq; contradiction)
    | _, isFalse h2 => isFalse (by intro hEq; injection hEq; contradiction)

end

instance : DecidableEq Val := Val.decEq

/-- Modelled from the spec: the handle layer (`rb_tr_wrap` / `rb_tr_unwrap`
live outside the included sources).  A native `VALUE` handle is an opaque
token standing for exactly one managed reference. -/
structure VALUE where
  ref : Val
deriving DecidableEq

/-- Modelled from the spec: `wrap(reference) -> handle`. -/
def rb_tr_wrap (r : Val) : VALUE := ⟨r⟩

/-- Modelled from the spec: `unwrap(handle) -> reference`. -/
def rb_tr_unwrap (h : VALUE) : Val := h.ref

def Qnil : VALUE := rb_tr_wrap Val.nil

/-- NIL_P(x): handle comparison against Qnil. -/
def NIL_P (v : VALUE) : Bool := v = Qnil

/-- Native-side symbol identifiers (`ID`), modelled by the symbol's name. -/
abbrev RbID := String

def ID2SYM (id : RbID) : VALUE := rb_tr_wrap (Val.sym id)

def rb_intern (s : String) : RbID := s

/-- Modelled from the spec: `rb_str_new_cstr` (string.c is outside the
included sources): a managed string from a native C string. -/
def rb_str_new_cstr (s : String) : VALUE := rb_tr_wrap (Val.str s)

/-- Modelled from the spec: `rb_to_id` (outside the included sources):
symbol identifier denoted by a managed string or symbol. -/
def rb_to_id (v : VALUE) : RbID :=
  match rb_tr_unwrap v with
  | Val.str s => s
  | Val.sym s => s
  | _ => ""

/-- Modelled from the spec: `rb_ary_new4` (array.c is outside the included
sources): packs `n` handles into an ordered managed array. -/
def rb_ary_new4 (args : List VALUE) : VALUE :=
  rb_tr_wrap (Val.ary (args.map rb_tr_unwrap))

def rb_eArgError : VALUE := rb_tr_wrap (Val.const "ArgError")

/-- Modelled from the spec: `rb_exc_new3` (outside the included sources):
a new exception object of class `klass` carrying message `msg`. -/
def rb_exc_new3 (klass msg : VALUE) : VALUE :=
  rb_tr_wrap (Val.exc (rb_tr_unwrap klass) (rb_tr_unwrap msg))

/-- Native function pointers crossing the bridge, as far as the glue layer
distinguishes them. -/
inductive FnPtr where
  | null
  | rubyUbfIo
  | nilMarker
  | gvlCallTrampoline
  | unblockTrampoline
  | native (addr : Nat)
deriving DecidableEq

/-- struct gvl_call_data: the contents the adapter struct for the gvl call
function points at. -/
structure gvl_call_data where
  function : FnPtr
  data : Nat
deriving DecidableEq

/-- struct unblock_function_data. -/
structure unblock_function_data where
  function : FnPtr
  data : Nat
deriving DecidableEq

/-- One positional argument of a bridge invocation: an unwrapped managed
value, a raw machine integer, a C string, a function pointer, a VALUE passed
raw as an opaque pointer, or the address of one of the adapter structs
(identified by its contents). -/
inductive BArg where
  | val (v : Val)
  | num (i : Int)
  | cstr (s : String)
  | fnptr (f : FnPtr)
  | handle (v : VALUE)
  | callData (d : gvl_call_data)
  | unblockData (d : unblock_function_data)
deriving DecidableEq

/-- One foreign invocation issued by the glue layer: either a named operation
on the RUBY_CEXT bridge object, or a method invocation on a managed object
(RUBY_INVOKE). -/
inductive BridgeCall where
  | cext (op : String) (args : List BArg)
  | send (recv : Val) (meth : String) (args : List Val)
deriving DecidableEq

/-- What a single bridge invocation does on the host side: return a managed
value or raise a managed exception (which propagates through the native
stack). -/
inductive HostResult where
  | ret (v : Val)
  | raise (e : Val)
deriving DecidableEq

/-- The host runtime as an oracle: responds to named bridge operations and to
method invocations, threading its own state `σ`. -/
structure Host (σ : Type) where
  call : σ → String → List BArg → HostResult × σ
  send : σ → Val → String → List Val → HostResult × σ

/-- Outcome of a native wrapper call: a normal return, a non-local exit via a
raised managed exception, or a fatal internal error (rb_tr_error). -/
inductive COutcome (α : Type) where
  | ok (v : α)
  | raised (e : Val)
  | fatal (msg : String)
deriving DecidableEq

/-- Result of running a wrapper: outcome, final host state, and the trace of
bridge invocations issued (in order). -/
structure Res (σ α : Type) where
  out : COutcome α
  st : σ
  tr : List BridgeCall

/-- Sequencing: run the continuation only on a normal return; a raise or a
fatal error short-circuits. -/
def Res.andThen (r : Res σ α) (k : α → σ → Res σ β) : Res σ β :=
  match r.out with
  | .ok v => let r2 := k v r.st; ⟨r2.out, r2.st, r.tr ++ r2.tr⟩
  | .raised e => ⟨.raised e, r.st, r.tr⟩
  | .fatal m => ⟨.fatal m, r.st, r.tr⟩

def Res.pure (s : σ) (v : α) : Res σ α := ⟨.ok v, s, []⟩

/-- polyglot_invoke(RUBY_CEXT, op, args...): one bridge invocation, recorded
in the trace; a host raise becomes a raised outcome. -/
def invokeC (h : Host σ) (s : σ) (op : String) (args : List BArg) : Res σ Val :=
  ⟨match (h.call s op args).1 with
    | .ret v => .ok v
    | .raise e => .raised e,
   (h.call s op args).2, [.cext op args]⟩

/-- RUBY_CEXT_INVOKE_NO_WRAP(op, args...): unwraps every VALUE argument,
returns the raw result. -/
def RUBY_CEXT_INVOKE_NO_WRAP (h : Host σ) (s : σ) (op : String) (args : List VALUE) : Res σ Val :=
  invokeC h s op (args.map (fun a => BArg.val (rb_tr_unwrap a)))

/-- RUBY_CEXT_INVOKE(op, args...): like NO_WRAP but wraps the result. -/
def RUBY_CEXT_INVOKE (h : Host σ) (s : σ) (op : String) (args : List VALUE) : Res σ VALUE :=
  (RUBY_CEXT_INVOKE_NO_WRAP h s op args).andThen (fun v s2 => Res.pure s2 (rb_tr_wrap v))

/-- RUBY_INVOKE(recv, meth, args...): method invocation on a managed object,
result wrapped. -/
def RUBY_INVOKE (h : Host σ) (s : σ) (recv : VALUE) (meth : String) (args : List VALUE) : Res σ VALUE :=
  ⟨match (h.send s (rb_tr_unwrap recv) meth (args.map rb_tr_unwrap)).1 with
    | .ret v => .ok (rb_tr_wrap v)
    | .raise e => .raised e,
   (h.send s (rb_tr_unwrap recv) meth (args.map rb_tr_unwrap)).2,
   [.send (rb_tr_unwrap recv) meth (args.map rb_tr_unwrap)]⟩

/-- rb_tr_error: fatal internal error, never returns. -/
def rb_tr_error (s : σ) (msg : String) : Res σ Unit := ⟨.fatal msg, s, []⟩

/-- Modelled from the spec: `rb_exc_raise` (outside the included sources) is
NORETURN: it raises its exception as a non-local exit. -/
def rb_exc_raise (s : σ) (e : VALUE) : Res σ Unit := ⟨.raised (rb_tr_unwrap e), s, []⟩

/-! Transcriptions of the wrappers in call.c. -/

/-- call.c: `rb_check_arity` invokes the bridge arity check (whose result is
discarded) and returns `argc`. -/
def rb_check_arity (h : Host σ) (s : σ) (argc mn mx : Int) : Res σ Int :=
  (invokeC h s "rb_check_arity" [.num argc, .num mn, .num mx]).andThen
    (fun _ s2 => Res.pure s2 argc)

/-- call.c: `rb_error_arity` raises an ArgError carrying the host-formatted
arity message. -/
def rb_error_arity (h : Host σ) (s : σ) (argc mn mx : Int) : Res σ Unit :=
  (invokeC h s "rb_arity_error_string" [.num argc, .num mn, .num mx]).andThen
    (fun msg s2 => rb_exc_raise s2 (rb_exc_new3 rb_eArgError (rb_tr_wrap msg)))

/-- call.c: `rb_funcallv`. -/
def rb_funcallv (h : Host σ) (s : σ) (object : VALUE) (name : RbID) (args : List VALUE) : Res σ VALUE :=
  RUBY_CEXT_INVOKE h s "rb_funcallv" [object, ID2SYM name, rb_ary_new4 args]

/-- call.c: `rb_funcall_with_block`. -/
def rb_funcall_with_block (h : Host σ) (s : σ) (recv : VALUE) (mid : RbID) (argv : List VALUE) (pass_procval : VALUE) : Res σ VALUE :=
  RUBY_CEXT_INVOKE h s "rb_funcall_with_block" [recv, ID2SYM mid, rb_ary_new4 argv, pass_procval]

/-- call.c: `rb_block_proc`. -/
def rb_block_proc (h : Host σ) (s : σ) : Res σ VALUE :=
  RUBY_CEXT_INVOKE h s "rb_block_proc" []

/-- call.c: `rb_block_given_p` is `!NIL_P(rb_block_proc())`. -/
def rb_block_given_p (h : Host σ) (s : σ) : Res σ Bool :=
  (rb_block_proc h s).andThen (fun p s2 => Res.pure s2 (!(NIL_P p)))

/-- call.c: `rb_block_call`: with an active block, direct invocation through
`rb_funcall_with_block` with the block proc; with a NULL callback, plain
`rb_funcallv`; otherwise the generic "rb_block_call" bridge operation carrying
the native callback and its data. -/
def rb_block_call (h : Host σ) (s : σ) (object : VALUE) (name : RbID) (args : List VALUE) (block_call_func : FnPtr) (data : VALUE) : Res σ VALUE :=
  (rb_block_given_p h s).andThen (fun given s2 =>
    if given then
      (rb_block_proc h s2).andThen (fun proc s3 =>
        rb_funcall_with_block h s3 object name args proc)
    else if block_call_func = FnPtr.null then
      rb_funcallv h s2 object name args
    else
      (invokeC h s2 "rb_block_call"
        [.val (rb_tr_unwrap object), .val (rb_tr_unwrap (ID2SYM name)),
         .val (rb_tr_unwrap (rb_ary_new4 args)), .fnptr block_call_func,
         .handle data]).andThen
        (fun v s3 => Res.pure s3 (rb_tr_wrap v)))

/-- call.c: `rb_each`: with an active block, forwards through
`rb_funcall_with_block`; otherwise invokes the `each` method directly. -/
def rb_each (h : Host σ) (s : σ) (array : VALUE) : Res σ VALUE :=
  (rb_block_given_p h s).andThen (fun given s2 =>
    if given then
      (rb_block_proc h s2).andThen (fun proc s3 =>
        rb_funcall_with_block h s3 array (rb_intern "each") [] proc)
    else
      RUBY_INVOKE h s2 array "each" [])

/-- call.c: `rb_yield`: with an active block, the "rb_yield" bridge
operation; otherwise the dedicated "yield_no_block" bridge operation. -/
def rb_yield (h : Host σ) (s : σ) (value : VALUE) : Res σ VALUE :=
  (rb_block_given_p h s).andThen (fun given s2 =>
    if given then RUBY_CEXT_INVOKE h s2 "rb_yield" [value]
    else RUBY_CEXT_INVOKE h s2 "yield_no_block" [])

/-- call.c: `rb_yield_splat`. -/
def rb_yield_splat (h : Host σ) (s : σ) (values : VALUE) : Res σ VALUE :=
  (rb_block_given_p h s).andThen (fun given s2 =>
    if given then RUBY_CEXT_INVOKE h s2 "rb_yield_splat" [values]
    else RUBY_CEXT_INVOKE h s2 "yield_no_block" [])

/-- Modelled from the spec: `rb_ary_store` (array.c is outside the included
sources): stores at index `i`, growing the array with nils if needed. -/
def rb_ary_store (ary : List Val) (i : Nat) (v : Val) : List Val :=
  if i < ary.length then ary.set i v
  else ary ++ List.replicate (i - ary.length) Val.nil ++ [v]

/-- The `for (i = 0; i < n; i++) rb_ary_store(values, i, arg_i)` loop shared
by `rb_yield_values` (reading `polyglot_get_arg(1+i)`) and `rb_yield_values2`
(reading `argv[i]`); both read the i-th native argument handle. -/
def yield_values_loop (args : List VALUE) (values : List Val) (i : Nat) : List Val :=
  if hlt : i < args.length then
    yield_values_loop args (rb_ary_store values i (rb_tr_unwrap (args.get ⟨i, hlt⟩))) (i + 1)
  else values
termination_by args.length - i

/-- call.c: `rb_yield_values`: packs its varargs into a managed array (via
`rb_ary_new_capa` of capacity n, contents built by the store loop), then
delegates to `rb_yield_splat`. -/
def rb_yield_values (h : Host σ) (s : σ) (args : List VALUE) : Res σ VALUE :=
  let values := yield_values_loop args [] 0
  rb_yield_splat h s (rb_tr_wrap (Val.ary values))

/-- call.c: `rb_yield_values2`: same loop over `argv[i]`. -/
def rb_yield_values2 (h : Host σ) (s : σ) (argv : List VALUE) : Res σ VALUE :=
  let values := yield_values_loop argv [] 0
  rb_yield_splat h s (rb_tr_wrap (Val.ary values))

/-- The argument tuple `rb_thread_call_without_gvl` passes across the bridge:
the fixed gvl-call trampoline, the call adapter struct, the wrapped unblock
function slot, and the unblock adapter struct. -/
structure WithoutGvlInvocation where
  callFn : FnPtr
  callStruct : gvl_call_data
  unblockFn : FnPtr
  unblockStruct : unblock_function_data
deriving DecidableEq

/-- call.c: the argument computation of `rb_thread_call_without_gvl`: wraps
the native function and data into adapter structs, and translates the
RUBY_UBF_IO sentinel into the unwrapped-nil marker instead of a callable
pointer; any other unblock function is reached through the fixed
`call_unblock_function` trampoline. -/
def rb_thread_call_without_gvl_args (function : FnPtr) (data1 : Nat) (unblock_function : FnPtr) (data2 : Nat) : WithoutGvlInvocation :=
  let call_struct : gvl_call_data := ⟨function, data1⟩
  let unblock_struct : unblock_function_data := ⟨unblock_function, data2⟩
  let wrapped_unblock_function : FnPtr :=
    if unblock_function = FnPtr.rubyUbfIo then FnPtr.nilMarker
    else FnPtr.unblockTrampoline
  ⟨FnPtr.gvlCallTrampoline, call_struct, wrapped_unblock_function, unblock_struct⟩

/-- call.c: `rb_thread_call_without_gvl`: issues the bridge invocation with
the wrapped adapters. -/
def rb_thread_call_without_gvl (h : Host σ) (s : σ) (function : FnPtr) (data1 : Nat) (unblock_function : FnPtr) (data2 : Nat) : Res σ Val :=
  let inv := rb_thread_call_without_gvl_args function data1 unblock_function data2
  invokeC h s "rb_thread_call_without_gvl"
    [.fnptr inv.callFn, .callData inv.callStruct, .fnptr inv.unblockFn, .unblockData inv.unblockStruct]

/-- call.c: `call_unblock_function`, the fixed-signature trampoline: reads the
adapter struct and dereferences the stored native unblock function pointer on
the stored data. -/
def call_unblock_function (s : unblock_function_data) : FnPtr × Nat :=
  (s.function, s.data)

/-- call.c: `rb_iter_break_value` invokes the raw (no-wrap) break-value bridge
operation, which must not return; if it does, escalates via `rb_tr_error`. -/
def rb_iter_break_value (h : Host σ) (s : σ) (value : VALUE) : Res σ Unit :=
  (RUBY_CEXT_INVOKE_NO_WRAP h s "rb_iter_break_value" [value]).andThen
    (fun _ s2 => rb_tr_error s2 "rb_iter_break_value should not return")

/-! Transcriptions of the wrappers in ivar.c. -/

/-- ivar.c: `rb_ivar_get`. -/
def rb_ivar_get (h : Host σ) (s : σ) (object : VALUE) (name : RbID) : Res σ VALUE :=
  RUBY_CEXT_INVOKE h s "rb_ivar_get" [object, ID2SYM name]

/-- ivar.c: `rb_ivar_set`: issues the raw (no-wrap) set operation and returns
the `value` argument itself. -/
def rb_ivar_set (h : Host σ) (s : σ) (object : VALUE) (name : RbID) (value : VALUE) : Res σ VALUE :=
  (RUBY_CEXT_INVOKE_NO_WRAP h s "rb_ivar_set" [object, ID2SYM name, value]).andThen
    (fun _ s2 => Res.pure s2 value)

/-- ivar.c: `rb_iv_set`: converts the C-string name to a symbol id, issues the
raw set operation, returns the `value` argument itself. -/
def rb_iv_set (h : Host σ) (s : σ) (object : VALUE) (name : String) (value : VALUE) : Res σ VALUE :=
  (RUBY_CEXT_INVOKE_NO_WRAP h s "rb_ivar_set"
      [object, ID2SYM (rb_to_id (rb_str_new_cstr name)), value]).andThen
    (fun _ s2 => Res.pure s2 value)

/-- ivar.c: `rb_ivar_lookup`: passes the name as a raw C string together with
the unwrapped object and default, wrapping the result. -/
def rb_ivar_lookup (h : Host σ) (s : σ) (object : VALUE) (name : String) (default_value : VALUE) : Res σ VALUE :=
  (invokeC h s "rb_ivar_lookup"
      [.val (rb_tr_unwrap object), .cstr name, .val (rb_tr_unwrap default_value)]).andThen
    (fun v s2 => Res.pure s2 (rb_tr_wrap v))

/-! Transcriptions of printf.c, over a spec-modelled platform formatter. -/

/-- One variadic argument consumed by a conversion directive. -/
inductive FmtArg where
  | fint (i : Int)
  | fstr (s : String)
deriving DecidableEq

/-- Rendering of a single conversion directive on one argument (the fragment
of the platform's conversion vocabulary this model distinguishes). -/
def renderDirective (d : Char) (a : FmtArg) : List Char :=
  match d, a with
  | 'd', .fint i => (toString i).data
  | 's', .fstr s => s.data
  | _, _ => []

/-- Modelled from the spec: the platform `vasprintf` (libc, outside the
included sources), which must honor the native variadic formatting semantics:
ordinary bytes are copied unchanged, `%%` emits a single `%`, and a
conversion directive consumes the next argument; a directive with no
remaining argument (or a trailing `%`) has no defined result (`none`, i.e.,
the platform call fails). -/
def vasprintfChars : List Char → List FmtArg → Option (List Char)
  | [], _ => some []
  | c :: rest, args =>
    if c = '%' then
      match rest with
      | [] => none
      | d :: rest2 =>
        if d = '%' then (vasprintfChars rest2 args).map (fun r => '%' :: r)
        else
          match args with
          | [] => none
          | a :: args2 => (vasprintfChars rest2 args2).map (fun r => renderDirective d a ++ r)
    else (vasprintfChars rest args).map (fun r => c :: r)

/-- Text encodings, as far as printf.c distinguishes them: the raw/binary
ASCII-8BIT encoding versus any named encoding. -/
inductive REncoding where
  | ascii8bit
  | enc (name : String)
deriving DecidableEq

/-- Modelled from the spec: `rb_ascii8bit_encoding` (outside the included
sources) is the raw/binary encoding. -/
def rb_ascii8bit_encoding : REncoding := REncoding.ascii8bit

/-- A managed string as printf.c observes it: a byte sequence tagged with an
encoding. -/
structure RString where
  bytes : List Char
  encoding : REncoding
deriving DecidableEq

/-- Modelled from the spec: `rb_enc_str_new_cstr` (outside the included
sources): a managed string with the given bytes, tagged with `enc`. -/
def rb_enc_str_new_cstr (buffer : List Char) (enc : REncoding) : RString :=
  ⟨buffer, enc⟩

/-- printf.c: `rb_enc_vsprintf`: formats via the platform formatter into a
fresh buffer (a failed platform call is a fatal `rb_tr_error`), then tags the
buffer with the requested encoding. -/
def rb_enc_vsprintf (enc : REncoding) (format : List Char) (args : List FmtArg) : COutcome RString :=
  match vasprintfChars format args with
  | none => .fatal "vasprintf error"
  | some buffer => .ok (rb_enc_str_new_cstr buffer enc)

/-- printf.c: `rb_enc_sprintf` forwards its varargs to `rb_enc_vsprintf`. -/
def rb_enc_sprintf (enc : REncoding) (format : List Char) (args : List FmtArg) : COutcome RString :=
  rb_enc_vsprintf enc format args

/-- printf.c: `rb_vsprintf` is `rb_enc_vsprintf` at the raw/binary
encoding. -/
def rb_vsprintf (format : List Char) (args : List FmtArg) : COutcome RString :=
  rb_enc_vsprintf rb_ascii8bit_encoding format args

/-- printf.c: `rb_sprintf` forwards its varargs to `rb_vsprintf`. -/
def rb_sprintf (format : List Char) (args : List FmtArg) : COutcome RString :=
  rb_vsprintf format args

/-! Spec-modelled host instances used to settle the end-to-end claims. -/

/-- An instance-variable table: bindings of (object, variable name) to
values, most recent first. -/
abbrev IvarStore := List ((Val × String) × Val)

def ivarLookupFn : IvarStore → Val → String → Option Val
  | [], _, _ => none
  | (k, v) :: rest, object, name =>
    if k = (object, name) then some v else ivarLookupFn rest object name

/-- Modelled from the spec: the host runtime's instance-variable operations
(`rb_ivar_set`, `rb_ivar_get`, `rb_ivar_lookup` on the managed side live
outside the included sources): set records a binding; get returns the bound
value or nil; lookup returns the bound value or the supplied default.  Every
other operation reports an error. -/
def ivarHost : Host IvarStore where
  call st op args :=
    if op = "rb_ivar_set" then
      match args with
      | [.val object, .val (Val.sym name), .val v] => (.ret v, ((object, name), v) :: st)
      | _ => (.raise (Val.const "NoMethodError"), st)
    else if op = "rb_ivar_get" then
      match args with
      | [.val object, .val (Val.sym name)] =>
        (.ret ((ivarLookupFn st object name).getD Val.nil), st)
      | _ => (.raise (Val.const "NoMethodError"), st)
    else if op = "rb_ivar_lookup" then
      match args with
      | [.val object, .cstr name, .val dflt] =>
        (.ret ((ivarLookupFn st object name).getD dflt), st)
      | _ => (.raise (Val.const "NoMethodError"), st)
    else (.raise (Val.const "NoMethodError"), st)
  send st _ _ _ := (.raise (Val.const "NoMethodError"), st)

/-- Modelled from the spec: the host runtime's method dispatch with a block.
`dispatch recv name args block` is the externally observable result of
calling method `name` on `recv` with `args` and block `block`;
`activeBlock` is the block proc currently active in the calling context
(nil when none). -/
structure DispatchModel where
  dispatch : Val → Val → List Val → Val → HostResult
  activeBlock : Val

/-- The host induced by a dispatch model: "rb_block_proc" returns the active
block, and "rb_funcall_with_block" dispatches with the explicitly passed
proc. -/
def DispatchModel.toHost (m : DispatchModel) : Host Unit where
  call _ op args :=
    (if op = "rb_block_proc" then
      match args with
      | [] => HostResult.ret m.activeBlock
      | _ => HostResult.raise (Val.const "NoMethodError")
    else if op = "rb_funcall_with_block" then
      match args with
      | [.val recv, .val nameSym, .val (Val.ary as), .val block] =>
        m.dispatch recv nameSym as block
      | _ => HostResult.raise (Val.const "NoMethodError")
    else HostResult.raise (Val.const "NoMethodError"), ())
  send _ _ _ _ := (HostResult.raise (Val.const "NoMethodError"), ())

/-- Modelled from the spec: the generic block-call path in which the bridge
itself resolves the currently active block and dispatches with it. -/
def genericBlockCallResolving (m : DispatchModel) (recv nameSym : Val) (args : List Val) : HostResult :=
  m.dispatch recv nameSym args m.activeBlock

/-- A concrete host with no active block: "rb_block_proc" (like every other
operation) answers nil, and method sends answer a distinguishable enumerator
object. -/
def noBlockHost : Host Unit where
  call s _ _ := (.ret Val.nil, s)
  send s _ _ _ := (.ret (Val.const "enumerator"), s)

/-- A concrete dispatch model for evaluation: dispatch records receiver,
method symbol, block and arguments in an array, and the active block is a
distinguished proc object. -/
def sampleDispatchModel : DispatchModel where
  dispatch recv nameSym args block := .ret (Val.ary (recv :: nameSym :: block :: args))
  activeBlock := Val.const "blk"

/-! Theorems. -/

theorem RUBY_CEXT_INVOKE_tr (h : Host σ) (s : σ) (op : String) (args : List VALUE) :
    (RUBY_CEXT_INVOKE h s op args).tr
      = [.cext op (args.map (fun a => BArg.val (rb_tr_unwrap a)))] := by
  unfold RUBY_CEXT_INVOKE RUBY_CEXT_INVOKE_NO_WRAP invokeC Res.andThen
  cases (h.call s op (args.map fun a => BArg.val (rb_tr_unwrap a))).1 <;> simp [Res.pure]

theorem rb_block_given_p_eq_of_nil (h : Host σ) (s s2 : σ)
    (hc : h.call s "rb_block_proc" [] = (.ret Val.nil, s2)) :
    rb_block_given_p h s = ⟨.ok false, s2, [.cext "rb_block_proc" []]⟩ := by
  simp [rb_block_given_p, rb_block_proc, RUBY_CEXT_INVOKE, RUBY_CEXT_INVOKE_NO_WRAP,
    invokeC, Res.andThen, Res.pure, hc, NIL_P, Qnil]

/-- C2: wrap and unwrap are mutual inverses: for every managed reference r,
unwrap(wrap(r)) = r, and for every handle h obtained from wrap,
wrap(unwrap(h)) = h. -/
theorem c2_wrap_unwrap_mutual_inverses :
    (∀ r : Val, rb_tr_unwrap (rb_tr_wrap r) = r)
      ∧ (∀ h : VALUE, rb_tr_wrap (rb_tr_unwrap h) = h) :=
  ⟨fun _ => rfl, fun _ => rfl⟩

/-- C4: a call to `rb_thread_call_without_gvl` whose cancellation callback is
the RUBY_UBF_IO sentinel translates the sentinel to the host-default
(unwrapped nil) marker before crossing the bridge: the slot that crosses is
the nil marker, not the trampoline that dereferences a native pointer, not
the sentinel itself, and not any native function pointer; the bridge
invocation carries exactly that marker. -/
theorem c4_ubf_io_sentinel_never_dereferenced :
    ∀ (f : FnPtr) (d1 d2 : Nat),
      (rb_thread_call_without_gvl_args f d1 FnPtr.rubyUbfIo d2).unblockFn = FnPtr.nilMarker
      ∧ (rb_thread_call_without_gvl_args f d1 FnPtr.rubyUbfIo d2).unblockFn ≠ FnPtr.unblockTrampoline
      ∧ (rb_thread_call_without_gvl_args f d1 FnPtr.rubyUbfIo d2).unblockFn ≠ FnPtr.rubyUbfIo
      ∧ (∀ a : Nat, (rb_thread_call_without_gvl_args f d1 FnPtr.rubyUbfIo d2).unblockFn ≠ FnPtr.native a)
      ∧ (∀ (σ : Type) (h : Host σ) (s : σ),
          (rb_thread_call_without_gvl h s f d1 FnPtr.rubyUbfIo d2).tr
            = [.cext "rb_thread_call_without_gvl"
                [.fnptr FnPtr.gvlCallTrampoline, .callData ⟨f, d1⟩,
                 .fnptr FnPtr.nilMarker, .unblockData ⟨FnPtr.rubyUbfIo, d2⟩]]) := by
  intro f d1 d2
  refine ⟨rfl, by simp [rb_thread_call_without_gvl_args], by simp [rb_thread_call_without_gvl_args], ?_, ?_⟩
  · intro a
    simp [rb_thread_call_without_gvl_args]
  · intro σ h s
    rfl

/-- C9: whenever the bridge arity-check operation returns normally,
`rb_check_arity` returns exactly its `argc` argument, ignoring the bridge
result. -/
theorem c9_check_arity_returns_argc :
    ∀ (σ : Type) (h : Host σ) (s s2 : σ) (argc mn mx : Int) (w : Val),
      h.call s "rb_check_arity" [.num argc, .num mn, .num mx] = (.ret w, s2) →
      (rb_check_arity h s argc mn mx).out = .ok argc := by
  intro σ h s s2 argc mn mx w hc
  simp [rb_check_arity, invokeC, Res.andThen, Res.pure, hc]

/-- Witness for C9 at a concrete host and arity triple. -/
theorem c9_witness : (rb_check_arity noBlockHost () 2 1 3).out = .ok 2 :=
  c9_check_arity_returns_argc Unit noBlockHost () () 2 1 3 Val.nil rfl

/-- C10: whenever the bridge set operation returns normally, `rb_ivar_set`
and `rb_iv_set` return exactly the value handle they were given. -/
theorem c10_ivar_set_returns_value :
    ∀ (σ : Type) (h : Host σ) (s s2 : σ) (object value : VALUE) (name : String) (w : Val),
      h.call s "rb_ivar_set"
          [.val (rb_tr_unwrap object), .val (Val.sym name), .val (rb_tr_unwrap value)]
        = (.ret w, s2) →
      (rb_ivar_set h s object name value).out = .ok value
        ∧ (rb_iv_set h s object name value).out = .ok value := by
  intro σ h s s2 object value name w hc
  simp only [rb_tr_unwrap] at hc
  constructor
  · simp [rb_ivar_set, RUBY_CEXT_INVOKE_NO_WRAP, invokeC, Res.andThen, Res.pure, ID2SYM,
      rb_tr_unwrap, rb_tr_wrap, hc]
  · simp [rb_iv_set, RUBY_CEXT_INVOKE_NO_WRAP, invokeC, Res.andThen, Res.pure, ID2SYM,
      rb_to_id, rb_str_new_cstr, rb_tr_unwrap, rb_tr_wrap, hc]

/-- Witness for C10 at a concrete host, object, name and value. -/
theorem c10_witness :
    (rb_ivar_set noBlockHost () (rb_tr_wrap (Val.const "o")) "@x" (rb_tr_wrap (Val.int 5))).out
        = .ok (rb_tr_wrap (Val.int 5))
      ∧ (rb_iv_set noBlockHost () (rb_tr_wrap (Val.const "o")) "@x" (rb_tr_wrap (Val.int 5))).out
        = .ok (rb_tr_wrap (Val.int 5)) :=
  c10_ivar_set_returns_value Unit noBlockHost () () (rb_tr_wrap (Val.const "o"))
    (rb_tr_wrap (Val.int 5)) "@x" Val.nil rfl

/-- C6: `rb_error_arity` and `rb_iter_break_value` never return control to
their caller: for every host and input the outcome is never a normal return;
and if the break-value bridge operation (which must not return) nonetheless
returns, the wrapper escalates to the fatal internal error. -/
theorem c6_raisers_never_return :
    ∀ (σ : Type) (h : Host σ) (s : σ) (argc mn mx : Int) (value : VALUE),
      (rb_error_arity h s argc mn mx).out ≠ .ok ()
      ∧ (rb_iter_break_value h s value).out ≠ .ok ()
      ∧ (∀ (w : Val) (s2 : σ),
          h.call s "rb_iter_break_value" [.val (rb_tr_unwrap value)] = (.ret w, s2) →
          (rb_iter_break_value h s value).out = .fatal "rb_iter_break_value should not return") := by
  intro σ h s argc mn mx value
  refine ⟨?_, ?_, ?_⟩
  · cases hr : (h.call s "rb_arity_error_string" [.num argc, .num mn, .num mx]).1 <;>
      simp [rb_error_arity, invokeC, Res.andThen, Res.pure, rb_exc_raise, hr]
  · cases hr : (h.call s "rb_iter_break_value" [.val (rb_tr_unwrap value)]).1 <;>
      simp [rb_iter_break_value, RUBY_CEXT_INVOKE_NO_WRAP, invokeC, Res.andThen, Res.pure,
        rb_tr_error, hr]
  · intro w s2 hc
    simp [rb_iter_break_value, RUBY_CEXT_INVOKE_NO_WRAP, invokeC, Res.andThen, Res.pure,
      rb_tr_error, hc]

/-- Witness for C6: at a concrete host whose break operation returns, the
wrapper escalates to the fatal internal error. -/
theorem c6_witness :
    (rb_iter_break_value noBlockHost () Qnil).out
      = .fatal "rb_iter_break_value should not return" :=
  (c6_raisers_never_return Unit noBlockHost () 0 1 2 Qnil).2.2 Val.nil () rfl

theorem rb_ary_store_append (l : List Val) (i : Nat) (v : Val) (hlen : l.length = i) :
    rb_ary_store l i v = l ++ [v] := by
  subst hlen
  simp [rb_ary_store]

theorem map_take_concat (l : List VALUE) (i : Nat) (h : i < l.length) :
    (l.take i).map rb_tr_unwrap ++ [rb_tr_unwrap (l.get ⟨i, h⟩)]
      = (l.take (i + 1)).map rb_tr_unwrap := by
  simp only [List.map_take]
  rw [← List.take_concat_get' (l.map rb_tr_unwrap) i (by simpa using h)]
  simp

theorem yield_values_loop_spec (args : List VALUE) :
    ∀ (k i : Nat), i + k = args.length →
      yield_values_loop args ((args.take i).map rb_tr_unwrap) i = args.map rb_tr_unwrap := by
  intro k
  induction k with
  | zero =>
    intro i hi
    unfold yield_values_loop
    rw [dif_neg (by omega)]
    rw [List.take_of_length_le (by omega)]
  | succ k ih =>
    intro i hi
    unfold yield_values_loop
    rw [dif_pos (by omega)]
    have hlen : ((args.take i).map rb_tr_unwrap).length = i := by
      simp [List.length_take]
      omega
    have hstore : rb_ary_store ((args.take i).map rb_tr_unwrap) i
          (rb_tr_unwrap (args.get ⟨i, by omega⟩))
        = (args.take (i + 1)).map rb_tr_unwrap := by
      rw [rb_ary_store_append _ _ _ hlen]
      exact map_take_concat args i (by omega)
    rw [hstore]
    exact ih (i + 1) (by omega)

theorem yield_values_loop_packs (args : List VALUE) :
    yield_values_loop args [] 0 = args.map rb_tr_unwrap := by
  have := yield_values_loop_spec args args.length 0 (by omega)
  simpa using this

/-- C5: for every argument sequence, `rb_yield_values` and `rb_yield_values2`
pack the arguments into an ordered managed array (the i-th entry being
exactly the i-th argument's reference, including the empty case) and then
delegate to `rb_yield_splat` on that array. -/
theorem c5_yield_values_pack_in_order :
    ∀ (σ : Type) (h : Host σ) (s : σ) (args : List VALUE),
      yield_values_loop args [] 0 = args.map rb_tr_unwrap
      ∧ rb_yield_values h s args = rb_yield_splat h s (rb_ary_new4 args)
      ∧ rb_yield_values2 h s args = rb_yield_splat h s (rb_ary_new4 args)
      ∧ (∀ i : Nat, (yield_values_loop args [] 0)[i]? = (args[i]?).map rb_tr_unwrap) := by
  intro σ h s args
  refine ⟨yield_values_loop_packs args, ?_, ?_, ?_⟩
  · unfold rb_yield_values
    rw [yield_values_loop_packs]
    rfl
  · unfold rb_yield_values2
    rw [yield_values_loop_packs]
    rfl
  · intro i
    rw [yield_values_loop_packs]
    exact List.getElem?_map rb_tr_unwrap args i

/-- C8: against the spec-modelled instance-variable host, setting an instance
variable and then immediately getting it by the same name returns the value
just set, and looking up a name with no defined instance variable returns the
supplied default value, not an error. -/
theorem c8_ivar_set_get_roundtrip :
    ∀ (st : IvarStore) (object value dflt : VALUE) (name : String),
      (rb_ivar_get ivarHost (rb_ivar_set ivarHost st object name value).st object name).out
          = .ok value
      ∧ (ivarLookupFn st (rb_tr_unwrap object) name = none →
          (rb_ivar_lookup ivarHost st object name dflt).out = .ok dflt) := by
  intro st object value dflt name
  constructor
  · simp [rb_ivar_get, rb_ivar_set, RUBY_CEXT_INVOKE, RUBY_CEXT_INVOKE_NO_WRAP, invokeC,
      Res.andThen, Res.pure, ivarHost, ivarLookupFn, ID2SYM, rb_tr_unwrap, rb_tr_wrap]
  · intro hnone
    simp only [rb_tr_unwrap] at hnone
    simp [rb_ivar_lookup, invokeC, Res.andThen, Res.pure, ivarHost, rb_tr_unwrap, rb_tr_wrap,
      hnone]

/-- Witness for C8 at a concrete store, object, name, value and default. -/
theorem c8_witness :
    (rb_ivar_get ivarHost
        (rb_ivar_set ivarHost [] (rb_tr_wrap (Val.const "o")) "@x" (rb_tr_wrap (Val.int 5))).st
        (rb_tr_wrap (Val.const "o")) "@x").out = .ok (rb_tr_wrap (Val.int 5))
      ∧ (rb_ivar_lookup ivarHost [] (rb_tr_wrap (Val.const "o")) "@y"
          (rb_tr_wrap (Val.int 7))).out = .ok (rb_tr_wrap (Val.int 7)) :=
  ⟨(c8_ivar_set_get_roundtrip [] (rb_tr_wrap (Val.const "o")) (rb_tr_wrap (Val.int 5))
      (rb_tr_wrap (Val.int 7)) "@x").1,
   (c8_ivar_set_get_roundtrip [] (rb_tr_wrap (Val.const "o")) (rb_tr_wrap (Val.int 5))
      (rb_tr_wrap (Val.int 7)) "@y").2 rfl⟩

/-- C3: against the spec-modelled dispatch host, when a block is active in
the calling context, `rb_block_call` (which takes the direct
`rb_funcall_with_block` path with the explicit block proc) produces exactly
the result of the generic block-call path in which the bridge resolves the
currently active block, for every receiver, method name, argument list,
native callback and data. -/
theorem c3_block_call_direct_eq_generic :
    ∀ (m : DispatchModel) (object : VALUE) (name : RbID) (args : List VALUE)
      (fp : FnPtr) (data : VALUE),
      m.activeBlock ≠ Val.nil →
      (rb_block_call m.toHost () object name args fp data).out =
        (match genericBlockCallResolving m (rb_tr_unwrap object) (Val.sym name)
            (args.map rb_tr_unwrap) with
         | .ret v => .ok (rb_tr_wrap v)
         | .raise e => .raised e) := by
  intro m object name args fp data hb
  cases hd : m.dispatch object.ref (Val.sym name) (args.map rb_tr_unwrap) m.activeBlock <;>
    simp [rb_block_call, rb_block_given_p, rb_block_proc, rb_funcall_with_block,
      RUBY_CEXT_INVOKE, RUBY_CEXT_INVOKE_NO_WRAP, invokeC, Res.andThen, Res.pure,
      DispatchModel.toHost, genericBlockCallResolving, NIL_P, Qnil, VALUE.mk.injEq, hb,
      ID2SYM, rb_ary_new4, rb_tr_unwrap, rb_tr_wrap, hd]

/-- Witness for C3 at the concrete sample dispatch model. -/
theorem c3_witness :
    (rb_block_call sampleDispatchModel.toHost () (rb_tr_wrap (Val.const "o")) "m"
        [rb_tr_wrap (Val.int 1)] FnPtr.null Qnil).out
      = .ok (rb_tr_wrap (Val.ary
          [Val.const "o", Val.sym "m", Val.const "blk", Val.int 1])) := by
  have := c3_block_call_direct_eq_generic sampleDispatchModel (rb_tr_wrap (Val.const "o")) "m"
    [rb_tr_wrap (Val.int 1)] FnPtr.null Qnil (by decide)
  simpa [sampleDispatchModel, genericBlockCallResolving, rb_tr_unwrap, rb_tr_wrap] using this

theorem RUBY_INVOKE_tr (h : Host σ) (s : σ) (recv : VALUE) (meth : String) (args : List VALUE) :
    (RUBY_INVOKE h s recv meth args).tr
      = [.send (rb_tr_unwrap recv) meth (args.map rb_tr_unwrap)] := rfl

theorem andThen_tr_invokeC (h : Host σ) (s : σ) (op : String) (args : List BArg) (f : Val → VALUE) :
    ((invokeC h s op args).andThen (fun v s2 => Res.pure s2 (f v))).tr = [.cext op args] := by
  unfold invokeC Res.andThen
  cases (h.call s op args).1 <;> simp [Res.pure]

theorem Res.mk_ok_andThen (v : α) (s : σ) (tr : List BridgeCall) (k : α → σ → Res σ β) :
    (Res.mk (COutcome.ok v) s tr).andThen k
      = ⟨(k v s).out, (k v s).st, tr ++ (k v s).tr⟩ := rfl

/-- C1 counterexample: with no active block, `rb_each` does not raise the
missing-block error through the dedicated no-block bridge operation — it
attempts the underlying call (invoking `each` on the receiver) and returns
its result normally. -/
theorem c1_counterexample_each_no_block :
    (rb_each noBlockHost () (rb_tr_wrap (Val.const "arr"))).tr
        = [.cext "rb_block_proc" [], .send (Val.const "arr") "each" []]
      ∧ BridgeCall.cext "yield_no_block" []
          ∉ (rb_each noBlockHost () (rb_tr_wrap (Val.const "arr"))).tr
      ∧ (rb_each noBlockHost () (rb_tr_wrap (Val.const "arr"))).out
        = .ok (rb_tr_wrap (Val.const "enumerator")) :=
  ⟨rfl, by decide, rfl⟩

/-- C1 amended: with no active block, the yield-style forwarders `rb_yield`
and `rb_yield_splat` raise the missing-block error via the dedicated
"yield_no_block" bridge operation and never attempt the underlying yield,
whereas `rb_each` and `rb_block_call` instead attempt the underlying call:
`rb_each` invokes the `each` method directly, and `rb_block_call` issues the
generic block-call bridge operation with its explicit native callback (or
plain `rb_funcallv` when the callback is NULL). -/
theorem c1_no_block_routing :
    ∀ (σ : Type) (h : Host σ) (s s2 : σ) (v object data : VALUE) (name : RbID)
      (args : List VALUE) (fp : FnPtr),
      h.call s "rb_block_proc" [] = (.ret Val.nil, s2) →
      (rb_yield h s v).tr = [.cext "rb_block_proc" [], .cext "yield_no_block" []]
      ∧ (rb_yield_splat h s v).tr = [.cext "rb_block_proc" [], .cext "yield_no_block" []]
      ∧ (rb_each h s v).tr = [.cext "rb_block_proc" [], .send (rb_tr_unwrap v) "each" []]
      ∧ (fp ≠ FnPtr.null →
          (rb_block_call h s object name args fp data).tr
            = [.cext "rb_block_proc" [],
               .cext "rb_block_call"
                 [.val (rb_tr_unwrap object), .val (Val.sym name),
                  .val (Val.ary (args.map rb_tr_unwrap)), .fnptr fp, .handle data]])
      ∧ (rb_block_call h s object name args FnPtr.null data).tr
          = [.cext "rb_block_proc" [],
             .cext "rb_funcallv"
               [.val (rb_tr_unwrap object), .val (Val.sym name),
                .val (Val.ary (args.map rb_tr_unwrap))]] := by
  intro σ h s s2 v object data name args fp hc
  have hb := rb_block_given_p_eq_of_nil h s s2 hc
  refine ⟨?_, ?_, ?_, ?_, ?_⟩
  · simp [rb_yield, hb, Res.mk_ok_andThen, RUBY_CEXT_INVOKE_tr]
  · simp [rb_yield_splat, hb, Res.mk_ok_andThen, RUBY_CEXT_INVOKE_tr]
  · simp [rb_each, hb, Res.mk_ok_andThen, RUBY_INVOKE_tr]
  · intro hfp
    simp [rb_block_call, hb, Res.mk_ok_andThen, hfp, andThen_tr_invokeC, ID2SYM, rb_ary_new4,
      rb_tr_unwrap, rb_tr_wrap]
  · simp [rb_block_call, hb, Res.mk_ok_andThen, rb_funcallv, RUBY_CEXT_INVOKE_tr, ID2SYM,
      rb_ary_new4, rb_tr_unwrap, rb_tr_wrap]

/-- Witness for the amended C1 at a concrete host with no active block. -/
theorem c1_no_block_routing_witness :
    (rb_yield noBlockHost () Qnil).tr = [.cext "rb_block_proc" [], .cext "yield_no_block" []]
      ∧ (rb_block_call noBlockHost () Qnil "m" [] (FnPtr.native 7) Qnil).tr
        = [.cext "rb_block_proc" [],
           .cext "rb_block_call"
             [.val Val.nil, .val (Val.sym "m"), .val (Val.ary []),
              .fnptr (FnPtr.native 7), .handle Qnil]] :=
  ⟨(c1_no_block_routing Unit noBlockHost () () Qnil Qnil Qnil "m" [] (FnPtr.native 7) rfl).1,
   (c1_no_block_routing Unit noBlockHost () () Qnil Qnil Qnil "m" [] (FnPtr.native 7) rfl).2.2.2.1
     (by decide)⟩

theorem vasprintfChars_no_percent :
    ∀ (cs : List Char) (args : List FmtArg), '%' ∉ cs → vasprintfChars cs args = some cs := by
  intro cs
  induction cs with
  | nil =>
    intro args _
    rfl
  | cons c rest ih =>
    intro args hmem
    have hc : ¬(c = '%') := by
      intro hEq
      exact hmem (by rw [hEq]; exact List.mem_cons_self _ _)
    have hrest : '%' ∉ rest := fun hm => hmem (List.mem_cons_of_mem _ hm)
    unfold vasprintfChars
    rw [if_neg hc, ih args hrest]
    rfl

/-- C7 counterexample: with zero format arguments, the platform formatting
semantics turn the format string `%%` into the single byte `%`, so the result
bytes are not the literal format string. -/
theorem c7_counterexample_percent_escape :
    rb_sprintf ['%', '%'] [] = .ok ⟨['%'], REncoding.ascii8bit⟩
      ∧ (['%'] : List Char) ≠ ['%', '%'] :=
  ⟨rfl, by decide⟩

/-- C7 amended: for every format string containing no `%` directive
character, zero-argument formatted-string construction returns exactly the
format bytes tagged with the specified encoding, and the no-encoding entry
points `rb_sprintf` and `rb_vsprintf` tag the result with the raw/binary
ASCII-8BIT encoding. -/
theorem c7_sprintf_literal_format :
    ∀ (format : List Char) (enc : REncoding),
      '%' ∉ format →
      rb_enc_vsprintf enc format [] = .ok ⟨format, enc⟩
      ∧ rb_enc_sprintf enc format [] = .ok ⟨format, enc⟩
      ∧ rb_vsprintf format [] = .ok ⟨format, REncoding.ascii8bit⟩
      ∧ rb_sprintf format [] = .ok ⟨format, REncoding.ascii8bit⟩ := by
  intro format enc hnp
  have h := vasprintfChars_no_percent format [] hnp
  refine ⟨?_, ?_, ?_, ?_⟩ <;>
    simp [rb_enc_vsprintf, rb_enc_sprintf, rb_vsprintf, rb_sprintf, rb_ascii8bit_encoding,
      rb_enc_str_new_cstr, h]

/-- Witness for the amended C7 at a concrete directive-free format string. -/
theorem c7_sprintf_literal_format_witness :
    rb_enc_vsprintf (REncoding.enc "UTF-8") ['a', 'b', 'c'] []
        = .ok ⟨['a', 'b', 'c'], REncoding.enc "UTF-8"⟩
      ∧ rb_sprintf ['a', 'b', 'c'] [] = .ok ⟨['a', 'b', 'c'], REncoding.ascii8bit⟩ :=
  ⟨(c7_sprintf_literal_format ['a', 'b', 'c'] (REncoding.enc "UTF-8") (by decide)).1,
   (c7_sprintf_literal_format ['a', 'b', 'c'] (REncoding.enc "UTF-8") (by decide)).2.2.2⟩
